import Mathlib

/-!
Verification of the proximity-query helpers of `soporte_mongo.py`.

The file shallowly embeds the module: BSON-like values (`BVal`) model the
dictionaries the Python code builds; a collection handle is modelled by the
functions (`find`, `aggregate`) the code calls on it, each returning either
a list of raw documents or an engine-side error from the specification's
error taxonomy; `pd.DataFrame` applied to a list of records is modelled by
`dfOfDocs` (columns are the union of field names in first-seen order, rows
keep their order, a field missing from a record becomes the explicit
`Cell.absent` marker, pandas' NaN).
-/

/-- BSON-like values: the dictionaries, lists and scalars the Python
functions pass around. -/
inductive BVal where
  | str : String → BVal
  | num : Int → BVal
  | bool : Bool → BVal
  | arr : List BVal → BVal
  | doc : List (String × BVal) → BVal

/-- A raw record returned by the driver: field name to value, in order. -/
abbrev MDoc := List (String × BVal)

mutual

/-- Structural equality on `BVal`, the model of Python `==` on the values
the driver compares (e.g. `_id` keys). -/
def BVal.beq : BVal → BVal → Bool
  | .str a, .str b => a == b
  | .num a, .num b => a == b
  | .bool a, .bool b => a == b
  | .arr a, .arr b => BVal.beqL a b
  | .doc a, .doc b => BVal.beqD a b
  | _, _ => false

/-- Pointwise `BVal.beq` on lists. -/
def BVal.beqL : List BVal → List BVal → Bool
  | [], [] => true
  | a :: as, b :: bs => BVal.beq a b && BVal.beqL as bs
  | _, _ => false

/-- Pointwise `BVal.beq` on key-value lists. -/
def BVal.beqD : List (String × BVal) → List (String × BVal) → Bool
  | [], [] => true
  | (k, a) :: as, (l, b) :: bs => k == l && BVal.beq a b && BVal.beqD as bs
  | _, _ => false

end

/-- The error taxonomy of the specification (§7). -/
inductive ErrKind where
  | inputError
  | queryError
  | notFoundError
  | duplicateKeyError
  | lookupError
  deriving DecidableEq, Repr

/-- A cell of the normalized table: either a value or pandas' explicit
missing-value marker (NaN). -/
inductive Cell where
  | val : BVal → Cell
  | absent

/-- The normalized tabular result (`pandas.DataFrame`): a column list and a
list of rows, each row listing one cell per column. -/
structure DataFrame where
  cols : List String
  rows : List (List Cell)

/-- Keys of a record, in order. -/
def docKeys (d : MDoc) : List String := d.map Prod.fst

/-- Fold one record's keys into an accumulated column list, appending the
keys not seen yet (pandas' first-seen column order). -/
def insertKeys (acc : List String) (d : MDoc) : List String :=
  (docKeys d).foldl (fun a k => if k ∈ a then a else a ++ [k]) acc

/-- Union of the field names of all records, in first-seen order: the
column set `pd.DataFrame` gives a list of heterogeneous dicts. -/
def unionKeys (docs : List MDoc) : List String :=
  docs.foldl insertKeys []

/-- The cell a record contributes to a column: its value there, or the
absent marker when the record lacks the field. -/
def cellOf (d : MDoc) (c : String) : Cell :=
  match d.lookup c with
  | some v => Cell.val v
  | none => Cell.absent

/-- One normalized row of a record over a fixed column list. -/
def rowOf (cols : List String) (d : MDoc) : List Cell :=
  cols.map (cellOf d)

/-- Model of `pd.DataFrame` on a list of records: columns are the union of
field names, one row per record in order, missing fields marked absent. -/
def dfOfDocs (docs : List MDoc) : DataFrame :=
  ⟨unionKeys docs, docs.map (rowOf (unionKeys docs))⟩

/-- A table is well formed when every row has one cell per column. -/
def DataFrame.wellFormed (df : DataFrame) : Prop :=
  ∀ row ∈ df.rows, row.length = df.cols.length

/-- Index of a column name in a column list. -/
def colIdx : List String → String → Option Nat
  | [], _ => none
  | k :: ks, c => if k == c then some 0 else (colIdx ks c).map (· + 1)

/-- Cell of a table at row index `i`, column name `c`. -/
def DataFrame.cellAt (df : DataFrame) (i : Nat) (c : String) : Option Cell :=
  (df.rows.get? i).bind fun row =>
    (colIdx df.cols c).bind fun j => row.get? j

/-- A collection handle, as the core uses it (spec §6): the `find` and
`aggregate` driver calls, each producing raw records or an engine error. -/
structure Collection where
  find : BVal → Except ErrKind (List MDoc)
  aggregate : List BVal → Except ErrKind (List MDoc)

/-- The filter dictionary `query_near` builds, literally from the source:
`{'geometry': {'$near': {f'${col_geometria_coleccion}': punto_referencia,
'$maxDistance': radio}}}`. -/
def nearFilter (punto_referencia : BVal) (radio : BVal)
    (col_geometria_coleccion : String) : BVal :=
  BVal.doc [("geometry", BVal.doc [("$near",
    BVal.doc [("$" ++ col_geometria_coleccion, punto_referencia),
              ("$maxDistance", radio)])])]

/-- Function `query_near` from the source: build the `$near` filter, run
`find` on the collection, wrap the records into a DataFrame. -/
def query_near (punto_referencia : BVal) (radio : BVal) (coleccion : Collection)
    (col_geometria_coleccion : String) : Except ErrKind DataFrame :=
  (coleccion.find (nearFilter punto_referencia radio col_geometria_coleccion)).map
    dfOfDocs

/-- The aggregation pipeline `query_geonear` builds, literally from the
source: a single `$geoNear` stage with `near`, `distanceField`,
`maxDistance` and `spherical: True`. -/
def geoNearPipeline (punto_referencia : BVal) (nombre_nuevo_campo : String)
    (radio : BVal) : List BVal :=
  [BVal.doc [("$geoNear", BVal.doc
    [("near", punto_referencia),
     ("distanceField", BVal.str nombre_nuevo_campo),
     ("maxDistance", radio),
     ("spherical", BVal.bool true)])]]

/-- Function `query_geonear` from the source: build the one-stage pipeline,
run `aggregate` on the collection, wrap the records into a DataFrame. -/
def query_geonear (punto_referencia : BVal) (nombre_nuevo_campo : String)
    (radio : BVal) (coleccion : Collection) : Except ErrKind DataFrame :=
  (coleccion.aggregate (geoNearPipeline punto_referencia nombre_nuevo_campo radio)).map
    dfOfDocs

/-- Modelled from the claim's words, for comparison with `nearFilter`: a
filter on the `geometry` field whose operator is named by prefixing
`geometry_field_key` with `$`, with the reference point as the operator's
argument and `$maxDistance` bound to the radius. -/
def nearFilterClaim (punto_referencia : BVal) (radio : BVal)
    (col_geometria_coleccion : String) : BVal :=
  BVal.doc [("geometry",
    BVal.doc [("$" ++ col_geometria_coleccion, punto_referencia),
              ("$maxDistance", radio)])]

/-- Look a key up in a `BVal` document (`none` on non-documents). -/
def BVal.getKey (v : BVal) (k : String) : Option BVal :=
  match v with
  | .doc kvs => kvs.lookup k
  | _ => none

/-- The keys of a `BVal` document, in order (`[]` on non-documents). -/
def BVal.keysOf (v : BVal) : List String :=
  match v with
  | .doc kvs => kvs.map Prod.fst
  | _ => []

/-- A reference point is structurally valid when it is a document carrying
both a `type` and a `coordinates` entry (spec §3, GeoPoint). -/
def validPoint (p : BVal) : Prop :=
  (p.getKey "type").isSome ∧ (p.getKey "coordinates").isSome

instance (p : BVal) : Decidable (validPoint p) := by
  unfold validPoint; infer_instance

/-- A MongoDB server as `conexion_mongo` observes it: which databases
exist, and which collections each database has. -/
structure MongoServer where
  databaseNames : List String
  collectionNames : String → List String

/-- The body of `conexion_mongo`'s `try` block, from the source: connect,
raise if the database is missing, raise if the collection is missing,
otherwise return the client and the collection handle. The raised
`ValueError` is the spec's `NotFoundError`. -/
def conexion_mongo_body (srv : MongoServer)
    (nombre_base_datos nombre_coleccion : String) :
    Except ErrKind (MongoServer × String × String) :=
  if nombre_base_datos ∈ srv.databaseNames then
    if nombre_coleccion ∈ srv.collectionNames nombre_base_datos then
      .ok (srv, nombre_base_datos, nombre_coleccion)
    else .error .notFoundError
  else .error .notFoundError

/-- Function `conexion_mongo` from the source: the whole body sits in a
`try/except Exception` whose handler prints the error and returns nothing,
so the caller sees `none` instead of a raised error. -/
def conexion_mongo (srv : MongoServer)
    (nombre_base_datos nombre_coleccion : String) :
    Option (MongoServer × String × String) :=
  match conexion_mongo_body srv nombre_base_datos nombre_coleccion with
  | .ok v => some v
  | .error _ => none

/-- The `conexion` argument of `crear_bbbd_colecciones`: a
`pymongo.MongoClient`, a `pymongo.collection.Collection`, or any other
Python value. -/
inductive ConnArg where
  | client : ConnArg
  | collectionHandle : ConnArg
  | other : String → ConnArg

/-- The body of `crear_bbbd_colecciones`'s `try` block, from the source:
raise `TypeError` (the spec's `InputError`) unless the connection is a
`MongoClient` or a `Collection`. With a `MongoClient`, indexing yields a
database and each named collection is created, an already-existing one
(`CollectionInvalid`) being a printed, skipped, non-fatal condition. With
a `Collection`, indexing yields a sub-collection, which has no
`create_collection` method, so the first loop iteration raises a driver
`TypeError` ("Collection object is not callable"), modelled as
`.queryError` to keep it apart from the boundary check's `InputError`;
with an empty collection list the loop body never runs and the call
returns the handle. The database's collections are modelled by the list
`existing`. -/
def crear_body (conexion : ConnArg) (nombre_colecciones : List String)
    (existing : List String) : Except ErrKind (List String) :=
  match conexion with
  | .other _ => .error .inputError
  | .collectionHandle =>
      match nombre_colecciones with
      | [] => .ok existing
      | _ :: _ => .error .queryError
  | .client => .ok (nombre_colecciones.foldl
      (fun ex c => if c ∈ ex then ex else ex ++ [c]) existing)

/-- Function `crear_bbbd_colecciones` from the source: the whole body sits
in a
`try/except Exception` whose handler prints the error and returns nothing,
so on failure the caller gets `none` and the database is untouched. On
success it returns the database handle (its name here) and the updated
collection list. -/
def crear_bbbd_colecciones (conexion : ConnArg) (nombre_base_datos : String)
    (nombre_colecciones : List String) (existing : List String) :
    Option String × List String :=
  match crear_body conexion nombre_colecciones existing with
  | .ok ex => (some nombre_base_datos, ex)
  | .error _ => (none, existing)

/-- Contents of every collection of the target database, keyed by
collection (category) name. -/
abbrev DbState := String → List MDoc

/-- First stored document carrying `_id` equal to `v`, if any. -/
def findById (coll : List MDoc) (v : BVal) : Option MDoc :=
  coll.find? fun d =>
    match d.lookup "_id" with
    | some w => BVal.beq w v
    | none => false

/-- Does some stored document carry `_id` equal to `v`? This is the
engine's primary-key uniqueness check. -/
def containsId (coll : List MDoc) (v : BVal) : Bool :=
  (findById coll v).isSome

/-- Model of the driver's `insert_one`: refuse with `DuplicateKeyError`
when the document's `_id` is already present, otherwise append. -/
def insert_one (coll : List MDoc) (d : MDoc) : Except ErrKind (List MDoc) :=
  match d.lookup "_id" with
  | some v =>
      if containsId coll v then .error .duplicateKeyError
      else .ok (coll ++ [d])
  | none => .ok (coll ++ [d])

/-- One iteration of the per-document insert loop, from the source: `try`
the insert; on `DuplicateKeyError` (or any other error) print and keep
going with the collection unchanged. -/
def insertStep (coll : List MDoc) (d : MDoc) : List MDoc :=
  match insert_one coll d with
  | .ok c => c
  | .error _ => coll

/-- The per-document insert loop over a prepared batch. -/
def insertLoop (coll : List MDoc) (docs : List MDoc) : List MDoc :=
  docs.foldl insertStep coll

/-- Filter `df[df["category"] == categoria]`, on the successful path where
the frame has a `category` column: the rows whose `category` field equals
the given category name. The error path of the same source expression (no
`category` column) is checked at its use site in `processCategory`. -/
def filterCat (df : List MDoc) (categoria : String) : List MDoc :=
  df.filter fun d =>
    match d.lookup "category" with
    | some (BVal.str s) => s == categoria
    | _ => false

/-- Python dict insertion: an existing key keeps its position and takes
the new value, a new key is appended at the end. -/
def dictUpd (d : MDoc) (kv : String × BVal) : MDoc :=
  if (d.lookup kv.1).isSome then
    d.map (fun e => if e.1 = kv.1 then (e.1, kv.2) else e)
  else d ++ [kv]

/-- A Python dict literal built from a sequence of key-value pairs: later
pairs override the values of earlier ones. -/
def dictOfPairs (pairs : List (String × BVal)) : MDoc :=
  pairs.foldl dictUpd []

/-- One step of the source's rename comprehension,
`{"_id": d.pop("fsq_id"), **d}`: a dict literal opening with an `_id`
entry holding the popped `fsq_id` value and then splicing the rest of the
row, so a row that itself carries an `_id` field overrides the new
entry's value with its own; a row without `fsq_id` raises `KeyError` (a
lookup error). -/
def renameRow (d : MDoc) : Except ErrKind MDoc :=
  match d.lookup "fsq_id" with
  | none => .error .lookupError
  | some v =>
      .ok (dictOfPairs (("_id", v) :: d.filter (fun kv => kv.1 ≠ "fsq_id")))

/-- The whole rename comprehension: left to right, stopping at the first
row that lacks `fsq_id`. It runs before any insert of the category. -/
def renameRows : List MDoc → Except ErrKind (List MDoc)
  | [] => .ok []
  | d :: ds =>
      match renameRow d with
      | .error e => .error e
      | .ok d' => (renameRows ds).map (d' :: ·)

/-- Replace one collection's contents in the database state. -/
def updateDb (db : DbState) (cat : String) (coll : List MDoc) : DbState :=
  fun c => if c = cat then coll else db c

/-- One iteration of `insertar_datos_en_colecciones`'s outer loop: the
source first evaluates `df[df["category"] == categoria]`, which raises an
uncaught `KeyError` when the frame has no `category` column (in this
record-list embedding: when no record carries the field); it then renames
`fsq_id` to `_id` for the whole filtered batch, outside any per-row
handler, and only then runs the guarded insert loop. -/
def processCategory (df : List MDoc) (db : DbState) (categoria : String) :
    Except ErrKind DbState :=
  if "category" ∈ unionKeys df then
    match renameRows (filterCat df categoria) with
    | .error e => .error e
    | .ok docs => .ok (updateDb db categoria (insertLoop (db categoria) docs))
  else .error .lookupError

/-- The outer loop over categories: an error escaping `processCategory` is
uncaught (there is no outer handler in the source), so it aborts the whole
call, leaving the database as it stood before that category. -/
def insertarAux (df : List MDoc) : DbState → List String → Option ErrKind × DbState
  | db, [] => (none, db)
  | db, c :: cs =>
      match processCategory df db c with
      | .error e => (some e, db)
      | .ok db' => insertarAux df db' cs

/-- Function `insertar_datos_en_colecciones` from the source: returns the
escaped error, if any, together with the final database state. -/
def insertar_datos_en_colecciones (df : List MDoc) (base_datos : DbState)
    (nombre_categorias : List String) : Option ErrKind × DbState :=
  insertarAux df base_datos nombre_categorias

/-- A concrete, structurally valid reference point. -/
def ptMadrid : BVal :=
  BVal.doc [("type", BVal.str "Point"),
            ("coordinates", BVal.arr [BVal.num (-4), BVal.num 40])]

/-- A collection whose engine matches nothing: every query succeeds with
no records. -/
def colEmpty : Collection := ⟨fun _ => .ok [], fun _ => .ok []⟩

/-- A collection whose `find` answers a record exactly for filters whose
`geometry` value is a two-entry document (the shape the claim describes),
and nothing for any other filter shape. -/
def colShape : Collection :=
  ⟨fun f =>
    match f with
    | .doc [(_, .doc [_, _])] => .ok [[("hit", BVal.num 1)]]
    | _ => .ok [],
   fun _ => .ok []⟩

/-- Number of rows of a successful query outcome. -/
def okRowCount : Except ErrKind DataFrame → Nat
  | .ok df => df.rows.length
  | .error _ => 0

/-- Did the query outcome succeed? -/
def isOkB : Except ErrKind DataFrame → Bool
  | .ok _ => true
  | .error _ => false

/-- A one-database, one-collection server. -/
def srvOne : MongoServer := ⟨["apis"], fun _ => ["locales"]⟩

/-- A stored document with primary key `abc`. -/
def docPepe : MDoc := [("_id", BVal.str "abc"), ("nombre", BVal.str "Casa Pepe")]

/-- A database whose `restaurantes` collection already holds `docPepe`. -/
def dbW : DbState := fun c => if c = "restaurantes" then [docPepe] else []

/-- A row whose primary key `abc` conflicts with the stored document. -/
def rowDup : MDoc :=
  [("fsq_id", BVal.str "abc"), ("category", BVal.str "restaurantes"),
   ("nombre", BVal.str "Otro")]

/-- A row with the fresh primary key `xyz`. -/
def rowNew : MDoc :=
  [("fsq_id", BVal.str "xyz"), ("category", BVal.str "restaurantes"),
   ("nombre", BVal.str "Nuevo")]

/-- A batch with one conflicting and one fresh row of the same category. -/
def dfW : List MDoc := [rowDup, rowNew]

/-- A row of category `bares` with no `fsq_id` field. -/
def rowBad : MDoc := [("category", BVal.str "bares"), ("nombre", BVal.str "SinId")]

/-- A batch holding only the `fsq_id`-less row. -/
def dfBad : List MDoc := [rowBad]

mutual

/-- Reflexivity of the structural equality on values. -/
theorem BVal.beq_refl : ∀ v : BVal, BVal.beq v v = true
  | .str a => by simp [BVal.beq]
  | .num a => by simp [BVal.beq]
  | .bool a => by simp [BVal.beq]
  | .arr l => by simpa [BVal.beq] using BVal.beqL_refl l
  | .doc l => by simpa [BVal.beq] using BVal.beqD_refl l

/-- Reflexivity of the pointwise structural equality on lists. -/
theorem BVal.beqL_refl : ∀ l : List BVal, BVal.beqL l l = true
  | [] => rfl
  | a :: as => by
      simp only [BVal.beqL, Bool.and_eq_true]
      exact ⟨BVal.beq_refl a, BVal.beqL_refl as⟩

/-- Reflexivity of the pointwise structural equality on key-value lists. -/
theorem BVal.beqD_refl : ∀ l : List (String × BVal), BVal.beqD l l = true
  | [] => rfl
  | (k, a) :: as => by
      simp only [BVal.beqD, Bool.and_eq_true, beq_self_eq_true, true_and]
      exact ⟨BVal.beq_refl a, BVal.beqD_refl as⟩

end

/-- C1: for every reference point, distance-field name, radius and
collection, `query_geonear` builds exactly a one-stage pipeline whose
single stage is a `$geoNear` with `near` the reference point,
`distanceField` the given field name, `maxDistance` the radius and
spherical distance computation enabled, and returns the collection's
aggregation results for that pipeline as the table. -/
theorem query_geonear_pipeline_spec (p : BVal) (campo : String) (radio : BVal)
    (col : Collection) :
    (geoNearPipeline p campo radio).length = 1 ∧
    (∃ stage, geoNearPipeline p campo radio = [stage] ∧
      stage.keysOf = ["$geoNear"] ∧
      ∃ geo, stage.getKey "$geoNear" = some geo ∧
        geo.getKey "near" = some p ∧
        geo.getKey "distanceField" = some (BVal.str campo) ∧
        geo.getKey "maxDistance" = some radio ∧
        geo.getKey "spherical" = some (BVal.bool true) ∧
        geo.keysOf = ["near", "distanceField", "maxDistance", "spherical"]) ∧
    query_geonear p campo radio col =
      (col.aggregate (geoNearPipeline p campo radio)).map dfOfDocs := by
  refine ⟨rfl, ⟨_, rfl, rfl, ⟨_, rfl, ?_, ?_, ?_, ?_, rfl⟩⟩, rfl⟩ <;>
    simp [BVal.getKey, List.lookup]

/-- C3 (amended): for every reference point, radius, collection and
`geometry_field_key`, `query_near` builds exactly a filter on the
`geometry` field whose single operator is the fixed `$near`, whose
argument document binds the key formed by prefixing `geometry_field_key`
with `$` to the reference point and `$maxDistance` to the radius, and
returns the collection's find results for that filter as the table. -/
theorem query_near_filter_spec (p : BVal) (radio : BVal) (col : Collection)
    (key : String) :
    (nearFilter p radio key).keysOf = ["geometry"] ∧
    (∃ nearDoc, (nearFilter p radio key).getKey "geometry" = some nearDoc ∧
      nearDoc.keysOf = ["$near"] ∧
      nearDoc.getKey "$near" =
        some (BVal.doc [("$" ++ key, p), ("$maxDistance", radio)])) ∧
    query_near p radio col key =
      (col.find (nearFilter p radio key)).map dfOfDocs := by
  exact ⟨rfl,
    ⟨BVal.doc [("$near", BVal.doc [("$" ++ key, p), ("$maxDistance", radio)])],
      rfl, rfl, rfl⟩, rfl⟩

/-- C3 counterexample: at `geometry_field_key = "geometry"`, the operator
`query_near` applies inside the `geometry` field is the fixed `$near`, not
the claimed `"$" ++ "geometry"`; consequently, against a collection that
distinguishes the two filter shapes, `query_near`'s result differs from
the find results for the claim's filter. -/
theorem query_near_operator_counterexample :
    ((nearFilter ptMadrid (BVal.num 500) "geometry").getKey "geometry").map
      BVal.keysOf = some ["$near"] ∧
    "$near" ≠ "$" ++ "geometry" ∧
    query_near ptMadrid (BVal.num 500) colShape "geometry" ≠
      (colShape.find (nearFilterClaim ptMadrid (BVal.num 500) "geometry")).map
        dfOfDocs := by
  refine ⟨rfl, by decide, fun h => absurd (congrArg okRowCount h) (by decide)⟩

/-- C2 counterexample: with the negative radius `-1` and a collection
whose aggregation returns no records, `query_geonear` returns a table
normally instead of failing with `InputError`. -/
theorem query_geonear_negative_radius_counterexample :
    ((-1 : Int) < 0) ∧
    query_geonear ptMadrid "distancia" (BVal.num (-1)) colEmpty =
      .ok (dfOfDocs []) ∧
    query_geonear ptMadrid "distancia" (BVal.num (-1)) colEmpty ≠
      .error ErrKind.inputError := by
  refine ⟨by decide, rfl, fun h => absurd (congrArg isOkB h) (by decide)⟩

/-- C2 (amended): `query_geonear` performs no radius validation: for every
negative radius and every collection whose aggregate call on the
constructed pipeline returns a record list, the call returns that list as
a table normally, not with `InputError`; rejecting a bad radius is left
entirely to the engine. -/
theorem query_geonear_no_radius_validation (p : BVal) (campo : String)
    (r : Int) (col : Collection) (docs : List MDoc)
    (hneg : r < 0)
    (h : col.aggregate (geoNearPipeline p campo (BVal.num r)) = .ok docs) :
    query_geonear p campo (BVal.num r) col = .ok (dfOfDocs docs) := by
  simp [query_geonear, h, Except.map]

/-- Witness for the amended C2 at radius `-1`. -/
theorem query_geonear_no_radius_validation_witness :
    query_geonear ptMadrid "distancia" (BVal.num (-1)) colEmpty =
      .ok (dfOfDocs []) :=
  query_geonear_no_radius_validation ptMadrid "distancia" (-1) colEmpty []
    (by decide) rfl

/-- C4 counterexample: with a reference point that has neither `type` nor
`coordinates` and a collection whose find returns no records, `query_near`
returns a table normally instead of failing with `InputError`. -/
theorem query_near_invalid_point_counterexample :
    ¬ validPoint (BVal.doc [("nombre", BVal.str "x")]) ∧
    query_near (BVal.doc [("nombre", BVal.str "x")]) (BVal.num 500)
      colEmpty "geometry" = .ok (dfOfDocs []) ∧
    query_near (BVal.doc [("nombre", BVal.str "x")]) (BVal.num 500)
      colEmpty "geometry" ≠ .error ErrKind.inputError := by
  refine ⟨by decide, rfl, fun h => absurd (congrArg isOkB h) (by decide)⟩

/-- C4 (amended): `query_near` performs no validation of the reference
point: for every structurally invalid point and every collection whose
find call on the constructed filter returns a record list, the call
returns that list as a table normally, not with `InputError`; rejecting a
malformed point is left entirely to the engine. -/
theorem query_near_no_point_validation (p : BVal) (radio : BVal)
    (col : Collection) (key : String) (docs : List MDoc)
    (hinvalid : ¬ validPoint p)
    (h : col.find (nearFilter p radio key) = .ok docs) :
    query_near p radio col key = .ok (dfOfDocs docs) := by
  simp [query_near, h, Except.map]

/-- Witness for the amended C4 at a point missing both required entries. -/
theorem query_near_no_point_validation_witness :
    query_near (BVal.doc [("nombre", BVal.str "x")]) (BVal.num 500)
      colEmpty "geometry" = .ok (dfOfDocs []) :=
  query_near_no_point_validation (BVal.doc [("nombre", BVal.str "x")])
    (BVal.num 500) colEmpty "geometry" [] (by decide) rfl

/-- A column present in a column list has an index, and the list holds the
column name there. -/
theorem colIdx_spec (l : List String) (c : String) (h : c ∈ l) :
    ∃ j, colIdx l c = some j ∧ l.get? j = some c := by
  induction l with
  | nil => cases h
  | cons k ks ih =>
    by_cases hk : (k == c) = true
    · exact ⟨0, by simp [colIdx, hk], by simp [eq_of_beq hk]⟩
    · have hc : c ∈ ks := by
        rcases List.mem_cons.mp h with h1 | h1
        · exact absurd (by simp [h1]) hk
        · exact h1
      obtain ⟨j, hj1, hj2⟩ := ih hc
      exact ⟨j + 1, by simp [colIdx, hk, hj1], by simpa using hj2⟩

/-- C6: result normalization is deterministic and idempotent: normalizing
the same raw record sequence twice yields identical tables, whose columns
are the union of the field names, with one row per record in order, every
row well formed, and each cell holding the record's value for the column
or the explicit absent marker when the record lacks the field. -/
theorem dfOfDocs_stable (docs : List MDoc) :
    dfOfDocs docs = dfOfDocs docs ∧
    (dfOfDocs docs).cols = unionKeys docs ∧
    (dfOfDocs docs).rows.length = docs.length ∧
    (dfOfDocs docs).wellFormed ∧
    (∀ i d, docs.get? i = some d → ∀ c ∈ unionKeys docs,
      (dfOfDocs docs).cellAt i c = some (cellOf d c)) := by
  refine ⟨rfl, rfl, by simp [dfOfDocs], ?_, ?_⟩
  · intro row hrow
    simp only [dfOfDocs, List.mem_map] at hrow
    obtain ⟨d, -, rfl⟩ := hrow
    simp [rowOf, dfOfDocs]
  · intro i d hd c hc
    obtain ⟨j, hj1, hj2⟩ := colIdx_spec _ _ hc
    rw [List.get?_eq_getElem?] at hd hj2
    simp [DataFrame.cellAt, dfOfDocs, hd, hj1, rowOf, hj2]

/-- Witness for C6: in a two-record set where only the first record has
field `a`, the second row marks column `a` absent. -/
theorem dfOfDocs_stable_witness :
    (dfOfDocs [[("a", BVal.num 1)], [("b", BVal.str "x")]]).cellAt 1 "a" =
      some Cell.absent := by
  have h := (dfOfDocs_stable [[("a", BVal.num 1)], [("b", BVal.str "x")]]).2.2.2.2
    1 [("b", BVal.str "x")] rfl "a" (by decide)
  simpa [cellOf] using h

/-- C5: for every valid reference point and non-negative radius such that
the engine returns no matching records, both `query_near` and
`query_geonear` return a well-formed zero-row table rather than an
error. -/
theorem queries_empty_result_wellformed (p : BVal) (r : Int) (col : Collection)
    (key campo : String)
    (hp : validPoint p) (hr : 0 ≤ r)
    (hfind : col.find (nearFilter p (BVal.num r) key) = .ok [])
    (hagg : col.aggregate (geoNearPipeline p campo (BVal.num r)) = .ok []) :
    query_near p (BVal.num r) col key = .ok (dfOfDocs []) ∧
    query_geonear p campo (BVal.num r) col = .ok (dfOfDocs []) ∧
    (dfOfDocs []).wellFormed ∧ (dfOfDocs []).rows = [] := by
  refine ⟨by simp [query_near, hfind, Except.map],
    by simp [query_geonear, hagg, Except.map], ?_, rfl⟩
  intro row hrow
  simp [dfOfDocs] at hrow

/-- Witness for C5 at a valid point, radius 500 and an engine with no
matching records. -/
theorem queries_empty_result_wellformed_witness :
    query_near ptMadrid (BVal.num 500) colEmpty "geometry" = .ok (dfOfDocs []) ∧
    query_geonear ptMadrid "distancia" (BVal.num 500) colEmpty =
      .ok (dfOfDocs []) ∧
    (dfOfDocs []).wellFormed ∧ (dfOfDocs []).rows = [] :=
  queries_empty_result_wellformed ptMadrid 500 colEmpty "geometry" "distancia"
    (by decide) (by decide) rfl rfl

/-- C7: on a server without the requested database, the body of
`conexion_mongo` raises the not-found error exactly as its docstring
documents, but the surrounding `except Exception` handler swallows it and
the caller receives `none` instead of the surfaced error; when both names
exist, the client and collection handle are returned. -/
theorem conexion_mongo_swallows_notfound :
    conexion_mongo srvOne "apis" "locales" = some (srvOne, "apis", "locales") ∧
    conexion_mongo_body ⟨[], fun _ => []⟩ "apis" "locales" =
      .error .notFoundError ∧
    conexion_mongo ⟨[], fun _ => []⟩ "apis" "locales" = none ∧
    conexion_mongo_body srvOne "apis" "bares" = .error .notFoundError ∧
    conexion_mongo srvOne "apis" "bares" = none :=
  ⟨rfl, rfl, rfl, rfl, rfl⟩

/-- C9: `crear_bbbd_colecciones` checks its argument structurally at the
boundary against the two accepted handle variants: a client passes and
the collections are created. On any other argument its body raises the
type error exactly as its docstring documents, but the surrounding
`except Exception` handler swallows it and the caller receives `none`
with the database untouched, instead of the surfaced `InputError`. A
collection handle also passes the boundary check, but the later
`create_collection` call fails on it and is equally swallowed, creating
nothing. -/
theorem crear_bbbd_swallows_inputerror :
    crear_bbbd_colecciones ConnArg.client "apis" ["bares"] [] =
      (some "apis", ["bares"]) ∧
    crear_body (ConnArg.other "cadena") ["bares"] [] = .error .inputError ∧
    crear_bbbd_colecciones (ConnArg.other "cadena") "apis" ["bares"] [] =
      (none, []) ∧
    crear_body ConnArg.collectionHandle ["bares"] [] = .error .queryError ∧
    crear_bbbd_colecciones ConnArg.collectionHandle "apis" ["bares"] [] =
      (none, []) :=
  ⟨rfl, rfl, rfl, rfl, rfl⟩

/-- One insert step either keeps the collection (duplicate key, skipped)
or appends the document at the end. -/
theorem insertStep_extend (coll : List MDoc) (d : MDoc) :
    insertStep coll d = coll ∨ insertStep coll d = coll ++ [d] := by
  unfold insertStep insert_one
  cases h : d.lookup "_id" with
  | none => right; rfl
  | some v =>
    by_cases hc : containsId coll v = true
    · left; simp [hc]
    · right; simp [hc]

/-- The insert loop only ever appends documents to the collection. -/
theorem insertLoop_extend (docs : List MDoc) : ∀ coll : List MDoc,
    ∃ ext, insertLoop coll docs = coll ++ ext := by
  induction docs with
  | nil => exact fun coll => ⟨[], by simp [insertLoop]⟩
  | cons d ds ih =>
    intro coll
    obtain ⟨ext, he⟩ := ih (insertStep coll d)
    have hstep : insertLoop coll (d :: ds) = insertLoop (insertStep coll d) ds := rfl
    rcases insertStep_extend coll d with h | h
    · exact ⟨ext, by rw [hstep, he, h]⟩
    · exact ⟨d :: ext, by rw [hstep, he, h, List.append_assoc]; rfl⟩

/-- A stored document found by id is still found after any append: the
lookup returns the first match and appends come after it. -/
theorem findById_append_some {coll ext : List MDoc} {v : BVal} {d₀ : MDoc}
    (h : findById coll v = some d₀) : findById (coll ++ ext) v = some d₀ := by
  simp only [findById] at h ⊢
  rw [List.find?_append, h]
  rfl

/-- Id containment is monotone under appends. -/
theorem containsId_append_left {coll ext : List MDoc} {v : BVal}
    (h : containsId coll v = true) : containsId (coll ++ ext) v = true := by
  simp only [containsId, Option.isSome_iff_exists] at h ⊢
  obtain ⟨d₀, hd₀⟩ := h
  exact ⟨d₀, findById_append_some hd₀⟩

/-- Appending a document with id `v` makes the collection contain `v`. -/
theorem containsId_append_self {coll : List MDoc} {d : MDoc} {v : BVal}
    (h : d.lookup "_id" = some v) : containsId (coll ++ [d]) v = true := by
  simp only [containsId, findById, List.find?_append]
  have hd : List.find? (fun d' =>
      match d'.lookup "_id" with
      | some w => BVal.beq w v
      | none => false) [d] = some d := by
    simp [List.find?, h, BVal.beq_refl]
  cases hfc : List.find? (fun d' =>
      match d'.lookup "_id" with
      | some w => BVal.beq w v
      | none => false) coll <;> simp [hfc, hd]

/-- A stored document found by id survives the whole insert loop. -/
theorem findById_insertLoop {coll docs : List MDoc} {v : BVal} {d₀ : MDoc}
    (h : findById coll v = some d₀) :
    findById (insertLoop coll docs) v = some d₀ := by
  obtain ⟨ext, he⟩ := insertLoop_extend docs coll
  rw [he]
  exact findById_append_some h

/-- Id containment survives the whole insert loop. -/
theorem containsId_insertLoop {coll docs : List MDoc} {v : BVal}
    (h : containsId coll v = true) :
    containsId (insertLoop coll docs) v = true := by
  obtain ⟨ext, he⟩ := insertLoop_extend docs coll
  rw [he]
  exact containsId_append_left h

/-- After one step on a document with id `v`, the collection contains `v`:
either it already did (duplicate, skipped) or the document went in. -/
theorem insertStep_inserts {coll : List MDoc} {d : MDoc} {v : BVal}
    (h : d.lookup "_id" = some v) :
    containsId (insertStep coll d) v = true := by
  unfold insertStep insert_one
  rw [h]
  by_cases hc : containsId coll v = true
  · simp [hc]
  · simp only [hc]
    simpa using containsId_append_self h

/-- Every document of the batch ends up contained after the loop: it is
either inserted at its step or was already present (skipped duplicate),
and containment then survives the remaining steps. -/
theorem insertLoop_processes {docs : List MDoc} : ∀ (coll : List MDoc)
    (d : MDoc) (v : BVal), d ∈ docs → d.lookup "_id" = some v →
    containsId (insertLoop coll docs) v = true := by
  induction docs with
  | nil => intro _ _ _ h; cases h
  | cons e es ih =>
    intro coll d v hd hv
    have hstep : insertLoop coll (e :: es) = insertLoop (insertStep coll e) es :=
      rfl
    rw [hstep]
    rcases List.mem_cons.mp hd with rfl | hmem
    · exact containsId_insertLoop (insertStep_inserts hv)
    · exact ih _ _ _ hmem hv

/-- Python dict insertion keeps every already present key present. -/
theorem lookup_isSome_dictUpd {d : MDoc} {kv : String × BVal} {k : String}
    (h : (d.lookup k).isSome) : ((dictUpd d kv).lookup k).isSome := by
  unfold dictUpd
  by_cases hc : ((d.lookup kv.1).isSome = true)
  · simp only [if_pos hc]
    rw [List.lookup_isSome_iff] at h ⊢
    obtain ⟨p, hp, hk⟩ := h
    refine ⟨if p.1 = kv.1 then (p.1, kv.2) else p, List.mem_map_of_mem _ hp, ?_⟩
    have h1 : (if p.1 = kv.1 then (p.1, kv.2) else p).1 = p.1 := by
      split <;> rfl
    rw [h1]
    exact hk
  · simp only [if_neg hc]
    obtain ⟨b, hb⟩ := Option.isSome_iff_exists.mp h
    rw [List.lookup_append, hb]
    rfl

/-- Folding dict insertions keeps every already present key present. -/
theorem lookup_isSome_foldl_dictUpd (pairs : List (String × BVal)) :
    ∀ (d : MDoc) (k : String), (d.lookup k).isSome →
      ((pairs.foldl dictUpd d).lookup k).isSome := by
  induction pairs with
  | nil => exact fun _ _ h => h
  | cons p ps ih =>
    exact fun d k h => ih (dictUpd d p) k (lookup_isSome_dictUpd h)

/-- Every renamed row carries an `_id` entry: the dict literal opens with
one, and later splices can only override its value. -/
theorem renameRow_has_id {d : MDoc} {r' : MDoc} (h : renameRow d = .ok r') :
    ∃ w, r'.lookup "_id" = some w := by
  unfold renameRow at h
  cases hv : d.lookup "fsq_id" with
  | none => rw [hv] at h; cases h
  | some v =>
    rw [hv] at h
    injection h with h
    subst h
    apply Option.isSome_iff_exists.mp
    show ((List.foldl dictUpd []
      (("_id", v) :: d.filter (fun kv => kv.1 ≠ "fsq_id"))).lookup "_id").isSome
    rw [List.foldl_cons]
    exact lookup_isSome_foldl_dictUpd _ _ _ (by simp [dictUpd])

/-- Updating the value stored at one key does not change lookups at
another key. -/
theorem lookup_map_keyupd_ne (d : MDoc) (c k : String) (w : BVal)
    (hne : c ≠ k) :
    ((d.map (fun e => if e.1 = c then (e.1, w) else e)).lookup k) =
      d.lookup k := by
  induction d with
  | nil => rfl
  | cons e t ih =>
    obtain ⟨a, b⟩ := e
    rw [List.map_cons]
    by_cases hac : a = c
    · have hka : (k == a) = false :=
        beq_eq_false_iff_ne.mpr fun hka => hne (by rw [← hac, ← hka])
      simp only [if_pos hac]
      simp only [List.lookup_cons, hka]
      exact ih
    · simp only [if_neg hac]
      cases hka : (k == a) with
      | true => simp only [List.lookup_cons, hka]
      | false =>
        simp only [List.lookup_cons, hka]
        exact ih

/-- Dict insertion at one key does not change lookups at another key. -/
theorem lookup_dictUpd_ne {d : MDoc} {kv : String × BVal} {k : String}
    (hne : kv.1 ≠ k) : (dictUpd d kv).lookup k = d.lookup k := by
  unfold dictUpd
  by_cases hc : ((d.lookup kv.1).isSome = true)
  · simp only [if_pos hc]
    exact lookup_map_keyupd_ne d kv.1 k kv.2 hne
  · simp only [if_neg hc]
    rw [List.lookup_append]
    have h1 : ([kv] : MDoc).lookup k = none := by
      have hka : (k == kv.1) = false := beq_eq_false_iff_ne.mpr (Ne.symm hne)
      cases kv with
      | mk a b => simp only [List.lookup_cons, hka] at hka ⊢; rfl
    rw [h1]
    exact Option.or_none

/-- Folding dict insertions whose keys all differ from `k` does not
change the lookup at `k`. -/
theorem foldl_dictUpd_lookup_none (pairs : List (String × BVal)) :
    ∀ (d : MDoc) (k : String), pairs.lookup k = none →
      (pairs.foldl dictUpd d).lookup k = d.lookup k := by
  induction pairs with
  | nil => exact fun _ _ _ => rfl
  | cons p ps ih =>
    intro d k h
    obtain ⟨a, b⟩ := p
    rw [List.lookup_cons] at h
    cases hka : (k == a) with
    | true => rw [hka] at h; cases h
    | false =>
      rw [hka] at h
      rw [List.foldl_cons]
      rw [ih (dictUpd d (a, b)) k h]
      exact lookup_dictUpd_ne (Ne.symm (ne_of_beq_false hka))

/-- A key absent from a record stays absent after filtering. -/
theorem lookup_none_filter {d : MDoc} {k : String}
    {p : String × BVal → Bool} (h : d.lookup k = none) :
    (d.filter p).lookup k = none := by
  rw [List.lookup_eq_none_iff] at h ⊢
  exact fun q hq => h q (List.mem_of_mem_filter hq)

/-- A renamed row's `_id` is the `fsq_id` value whenever the row does not
itself carry an `_id` field (the realizable override corner being a row
with both fields). -/
theorem renameRow_id_of_no_id {d : MDoc} {v : BVal} {r' : MDoc}
    (hv : d.lookup "fsq_id" = some v) (hno : d.lookup "_id" = none)
    (h : renameRow d = .ok r') : r'.lookup "_id" = some v := by
  unfold renameRow at h
  rw [hv] at h
  injection h with h
  subst h
  have hrest : (d.filter (fun kv => kv.1 ≠ "fsq_id")).lookup "_id" = none :=
    lookup_none_filter hno
  show ((("_id", v) :: d.filter (fun kv => kv.1 ≠ "fsq_id")).foldl
    dictUpd []).lookup "_id" = some v
  rw [List.foldl_cons]
  rw [foldl_dictUpd_lookup_none _ _ _ hrest]
  rfl

/-- When every row has `fsq_id`, the rename comprehension succeeds and
yields each row's renamed form. -/
theorem renameRows_ok {rows : List MDoc}
    (h : ∀ d ∈ rows, (d.lookup "fsq_id").isSome) :
    ∃ docs, renameRows rows = .ok docs ∧
      ∀ d ∈ rows, ∀ r', renameRow d = .ok r' → r' ∈ docs := by
  induction rows with
  | nil => exact ⟨[], rfl, by simp⟩
  | cons r rs ih =>
    obtain ⟨v, hv⟩ :=
      Option.isSome_iff_exists.mp (h r (List.mem_cons_self r rs))
    obtain ⟨ds, hds, hmem⟩ := ih (fun d hd => h d (List.mem_cons_of_mem _ hd))
    have hr0 : renameRow r = .ok (dictOfPairs (("_id", v) ::
        r.filter (fun kv => kv.1 ≠ "fsq_id"))) := by
      simp [renameRow, hv]
    refine ⟨dictOfPairs (("_id", v) ::
      r.filter (fun kv => kv.1 ≠ "fsq_id")) :: ds, ?_, ?_⟩
    · simp [renameRows, hr0, hds, Except.map]
    · intro d hd r' hr'
      rcases List.mem_cons.mp hd with rfl | hmem2
      · rw [hr0] at hr'
        injection hr' with hr'
        rw [← hr']
        exact List.mem_cons_self _ _
      · exact List.mem_cons_of_mem _ (hmem d hmem2 r' hr')

/-- When the frame has the `category` column and every filtered row has
`fsq_id`, one category's processing succeeds, existing stored documents
are untouched, id containment is preserved, and each row of the category
ends up present under its renamed row's `_id`. -/
theorem processCategory_ok {df : List MDoc} {db : DbState} {c : String}
    (hcol : "category" ∈ unionKeys df)
    (h : ∀ d ∈ filterCat df c, (d.lookup "fsq_id").isSome) :
    ∃ db', processCategory df db c = .ok db' ∧
      (∀ cat v d₀, findById (db cat) v = some d₀ →
        findById (db' cat) v = some d₀) ∧
      (∀ cat v, containsId (db cat) v = true →
        containsId (db' cat) v = true) ∧
      (∀ d ∈ filterCat df c, ∀ r', renameRow d = .ok r' →
        ∃ w, r'.lookup "_id" = some w ∧ containsId (db' c) w = true) := by
  obtain ⟨docs, hds, hmem⟩ := renameRows_ok h
  refine ⟨updateDb db c (insertLoop (db c) docs), ?_, ?_, ?_, ?_⟩
  · unfold processCategory
    rw [if_pos hcol, hds]
  · intro cat v d₀ hf
    unfold updateDb
    by_cases hcat : cat = c
    · subst hcat
      simp only [if_pos rfl]
      exact findById_insertLoop hf
    · simpa [hcat] using hf
  · intro cat v hf
    unfold updateDb
    by_cases hcat : cat = c
    · subst hcat
      simp only [if_pos rfl]
      exact containsId_insertLoop hf
    · simpa [hcat] using hf
  · intro d hd r' hr'
    obtain ⟨w, hw⟩ := renameRow_has_id hr'
    refine ⟨w, hw, ?_⟩
    unfold updateDb
    simp only [if_pos rfl]
    exact insertLoop_processes (db c) r' w (hmem d hd r' hr') hw

/-- C8: bulk insertion is idempotent under conflict: when the frame has
its `category` column and every selected row carries `fsq_id`, the whole
batch is processed without an escaped error, every stored document is
left unchanged (so a duplicate-key row is a non-fatal per-row skip that
does not alter the stored document), every row of every selected category
ends up present under its renamed form's `_id`, and in particular a row
without an explicit `_id` field ends up present under its `fsq_id`
value. -/
theorem insertar_idempotent_under_conflict (df : List MDoc) (db : DbState)
    (cats : List String)
    (hcol : "category" ∈ unionKeys df)
    (hall : ∀ c ∈ cats, ∀ d ∈ filterCat df c, (d.lookup "fsq_id").isSome) :
    ∃ db', insertar_datos_en_colecciones df db cats = (none, db') ∧
      (∀ cat v d₀, findById (db cat) v = some d₀ →
        findById (db' cat) v = some d₀) ∧
      (∀ c ∈ cats, ∀ d ∈ filterCat df c, ∀ r', renameRow d = .ok r' →
        ∃ w, r'.lookup "_id" = some w ∧ containsId (db' c) w = true) ∧
      (∀ c ∈ cats, ∀ d ∈ filterCat df c, d.lookup "_id" = none →
        ∀ v, d.lookup "fsq_id" = some v → containsId (db' c) v = true) := by
  revert hall
  induction cats generalizing db with
  | nil => exact fun _ => ⟨db, rfl, fun _ _ _ h => h, by simp, by simp⟩
  | cons c cs ih =>
    intro hall
    obtain ⟨db₁, h1, hpres, hcont, hins⟩ :=
      @processCategory_ok df db c hcol (hall c (List.mem_cons_self c cs))
    obtain ⟨db', h2, hpres', hins', hfsq'⟩ :=
      ih db₁ (fun c' hc' => hall c' (List.mem_cons_of_mem _ hc'))
    refine ⟨db', ?_, ?_, ?_, ?_⟩
    · show insertarAux df db (c :: cs) = (none, db')
      unfold insertarAux
      rw [h1]
      exact h2
    · exact fun cat v d₀ hf => hpres' cat v d₀ (hpres cat v d₀ hf)
    · intro c' hc' d hd r' hr'
      rcases List.mem_cons.mp hc' with rfl | hmem
      · obtain ⟨w, hw, hcw⟩ := hins d hd r' hr'
        obtain ⟨d₀, hd₀⟩ := Option.isSome_iff_exists.mp hcw
        exact ⟨w, hw, by simp [containsId, hpres' c' w d₀ hd₀]⟩
      · exact hins' c' hmem d hd r' hr'
    · intro c' hc' d hd hno v hv
      rcases List.mem_cons.mp hc' with rfl | hmem
      · have hr0 : renameRow d = .ok (dictOfPairs (("_id", v) ::
            d.filter (fun kv => kv.1 ≠ "fsq_id"))) := by
          simp [renameRow, hv]
        obtain ⟨w, hw, hcw⟩ := hins d hd _ hr0
        have hwv : w = v := by
          have hv2 := renameRow_id_of_no_id hv hno hr0
          rw [hv2] at hw
          injection hw with hw
          exact hw.symm
        subst hwv
        obtain ⟨d₀, hd₀⟩ := Option.isSome_iff_exists.mp hcw
        simp [containsId, hpres' c' w d₀ hd₀]
      · exact hfsq' c' hmem d hd hno v hv

/-- Witness for C8: inserting a batch with one duplicate-key row and one
fresh row finishes without an escaped error, keeps the stored document for
the duplicate key unchanged, and inserts the fresh row. -/
theorem insertar_idempotent_under_conflict_witness :
    (insertar_datos_en_colecciones dfW dbW ["restaurantes"]).1 = none ∧
    findById ((insertar_datos_en_colecciones dfW dbW ["restaurantes"]).2
      "restaurantes") (BVal.str "abc") = some docPepe ∧
    containsId ((insertar_datos_en_colecciones dfW dbW ["restaurantes"]).2
      "restaurantes") (BVal.str "xyz") = true := by
  obtain ⟨db', h1, h2, h3, h4⟩ :=
    insertar_idempotent_under_conflict dfW dbW ["restaurantes"] (by decide) (by
      intro c hc d hd
      rw [List.mem_singleton] at hc
      subst hc
      rw [show filterCat dfW "restaurantes" = [rowDup, rowNew] from rfl] at hd
      rcases List.mem_cons.mp hd with rfl | hd2
      · rfl
      · rw [List.mem_singleton] at hd2
        subst hd2
        rfl)
  rw [h1]
  refine ⟨rfl, ?_, ?_⟩
  · exact h2 "restaurantes" (BVal.str "abc") docPepe rfl
  · refine h4 "restaurantes" (List.mem_cons_self _ _) rowNew ?_ rfl
      (BVal.str "xyz") rfl
    rw [show filterCat dfW "restaurantes" = [rowDup, rowNew] from rfl]
    exact List.mem_cons_of_mem _ (List.mem_cons_self _ _)

/-- Every failure of the rename comprehension is the `fsq_id` lookup
error. -/
theorem renameRows_error {rows : List MDoc} {r : MDoc} (hr : r ∈ rows)
    (hmiss : r.lookup "fsq_id" = none) :
    renameRows rows = .error .lookupError := by
  induction rows with
  | nil => cases hr
  | cons d ds ih =>
    rcases List.mem_cons.mp hr with rfl | hmem
    · simp [renameRows, renameRow, hmiss]
    · cases hd : d.lookup "fsq_id" with
      | none => simp [renameRows, renameRow, hd]
      | some v => simp [renameRows, renameRow, hd, ih hmem, Except.map]

/-- C10: the `fsq_id` to `_id` rename runs outside the per-row error
handler: whenever some row of a selected category lacks `fsq_id`,
processing that category fails with the lookup error before any row of
that category is inserted, the error escapes the whole call uncaught (the
database is returned exactly as it stood when that category was reached),
and a call whose category list contains that category always ends with
the escaped lookup error instead of logging and continuing. -/
theorem insertar_missing_fsq_id_uncaught (df : List MDoc) (c : String)
    (r : MDoc) (hr : r ∈ filterCat df c) (hmiss : r.lookup "fsq_id" = none) :
    (∀ db : DbState, processCategory df db c = .error .lookupError) ∧
    (∀ (db : DbState) (cs : List String),
      insertar_datos_en_colecciones df db (c :: cs) =
        (some .lookupError, db)) ∧
    (∀ (db : DbState) (cats : List String), c ∈ cats →
      (insertar_datos_en_colecciones df db cats).1 = some .lookupError) := by
  have hproc : ∀ db : DbState, processCategory df db c = .error .lookupError := by
    intro db
    unfold processCategory
    by_cases hcol : "category" ∈ unionKeys df
    · rw [if_pos hcol, renameRows_error hr hmiss]
    · rw [if_neg hcol]
  have hhead : ∀ (db : DbState) (cs : List String),
      insertar_datos_en_colecciones df db (c :: cs) =
        (some .lookupError, db) := by
    intro db cs
    show insertarAux df db (c :: cs) = (some .lookupError, db)
    unfold insertarAux
    rw [hproc db]
  refine ⟨hproc, hhead, ?_⟩
  intro db cats hc
  induction cats generalizing db with
  | nil => cases hc
  | cons c' cs' ih =>
    by_cases hcol : "category" ∈ unionKeys df
    · by_cases hall : ∀ d ∈ filterCat df c', ((d.lookup "fsq_id").isSome = true)
      · obtain ⟨db₁, h1, -, -, -⟩ := @processCategory_ok df db c' hcol hall
        rcases List.mem_cons.mp hc with rfl | hmem
        · rw [hproc db] at h1
          cases h1
        · show (insertarAux df db (c' :: cs')).1 = some .lookupError
          unfold insertarAux
          rw [h1]
          exact ih db₁ hmem
      · push_neg at hall
        obtain ⟨d, hd, hdnone⟩ := hall
        have hdn : d.lookup "fsq_id" = none := by
          cases hlk : d.lookup "fsq_id" with
          | none => rfl
          | some v => rw [hlk] at hdnone; simp at hdnone
        show (insertarAux df db (c' :: cs')).1 = some .lookupError
        unfold insertarAux
        rw [show processCategory df db c' = .error .lookupError from by
          unfold processCategory
          rw [if_pos hcol, renameRows_error hd hdn]]
    · show (insertarAux df db (c' :: cs')).1 = some .lookupError
      unfold insertarAux
      rw [show processCategory df db c' = .error .lookupError from by
        unfold processCategory
        rw [if_neg hcol]]

/-- Witness for C10: the batch with an `fsq_id`-less row makes the whole
call abort with the escaped lookup error and an untouched database. -/
theorem insertar_missing_fsq_id_uncaught_witness :
    insertar_datos_en_colecciones dfBad (fun _ => []) ["bares"] =
      (some ErrKind.lookupError, fun _ => []) :=
  (insertar_missing_fsq_id_uncaught dfBad "bares" rowBad
    (by
      rw [show filterCat dfBad "bares" = [rowBad] from rfl]
      exact List.mem_cons_self _ _) rfl).2.1 (fun _ => []) []
